import Mathlib

/-!
Shallow embedding of `src/text-summarizer.js` (a small text-summarizer CLI).

Strings are modelled as `List Char`.  The JavaScript regular expression
`/[^.!?]+[.!?]*\s*/g` used by `localSummarize` has no backtracking (every
part is a greedy character class and the two trailing quantifiers accept the
empty string), so its global-match semantics is a deterministic left-to-right
maximal-munch scan, embedded here as the automaton `scanFrags`.
The remote OpenAI call is external I/O; it is abstracted as an oracle
`List Char → Except ε SummaryResult` passed to `summarizeText` (`none`
models the unconfigured client, i.e. `openai === null`).
-/

/-- A sentence-terminator character, the class `[.!?]` of the source regex. -/
def isTerm (c : Char) : Bool := c = '.' || c = '!' || c = '?'

/-- JavaScript `\s` / `String.prototype.trim` whitespace. -/
def isWS (c : Char) : Bool :=
  c = ' ' || c = '\t' || c = '\n' || c = '\r' || c = '\x0b' || c = '\x0c' ||
  c = ' ' || c = ' ' || c = ' ' || c = ' ' || c = ' ' ||
  c = ' ' || c = ' ' || c = ' ' || c = ' ' || c = ' ' ||
  c = ' ' || c = ' ' || c = ' ' || c = ' ' || c = ' ' ||
  c = ' ' || c = ' ' || c = '　' || c = '﻿'

/-- JavaScript `String.prototype.trim`: drop whitespace from both ends. -/
def trimL (l : List Char) : List Char :=
  ((l.dropWhile isWS).reverse.dropWhile isWS).reverse

/-- Matcher state for the global scan of `/[^.!?]+[.!?]*\s*/g`:
`start` = looking for the start of a match, `sNon` = inside `[^.!?]+`,
`sTerm` = inside `[.!?]*`, `sWs` = inside the trailing `\s*`. -/
inductive MState where
  | start
  | sNon
  | sTerm
  | sWs
deriving DecidableEq

/-- One left-to-right pass of the global regex match.  `cur` is the current
match built in reverse.  At a position whose character cannot start `[^.!?]+`
the engine advances by one character (state `start`); each greedy class is
extended as far as possible, after which the match is emitted. -/
def scanFrags : MState → List Char → List Char → List (List Char)
  | .start, _, [] => []
  | .start, cur, c :: rest =>
      if isTerm c then scanFrags .start cur rest
      else scanFrags .sNon (c :: cur) rest
  | .sNon, cur, [] => [cur.reverse]
  | .sNon, cur, c :: rest =>
      if isTerm c then scanFrags .sTerm (c :: cur) rest
      else scanFrags .sNon (c :: cur) rest
  | .sTerm, cur, [] => [cur.reverse]
  | .sTerm, cur, c :: rest =>
      if isTerm c then scanFrags .sTerm (c :: cur) rest
      else if isWS c then scanFrags .sWs (c :: cur) rest
      else cur.reverse :: scanFrags .sNon [c] rest
  | .sWs, cur, [] => [cur.reverse]
  | .sWs, cur, c :: rest =>
      if isWS c then scanFrags .sWs (c :: cur) rest
      else if isTerm c then cur.reverse :: scanFrags .start [] rest
      else cur.reverse :: scanFrags .sNon [c] rest

/-- `text.match(/[^.!?]+[.!?]*\s*/g)`: the list of matched substrings
(`[]` corresponds to JavaScript returning `null`). -/
def matchFrags (text : List Char) : List (List Char) :=
  scanFrags .start [] text

/-- `text.match(/[^.!?]+[.!?]*\s*/g) || [text]` from `localSummarize`. -/
def sentencesOf (text : List Char) : List (List Char) :=
  if matchFrags text = [] then [text] else matchFrags text

/-- The `usage` record `{ prompt_tokens, completion_tokens, total_tokens }`. -/
structure TokenUsage where
  prompt_tokens : Nat
  completion_tokens : Nat
  total_tokens : Nat
deriving DecidableEq

/-- The `{ summary, usage }` record returned by the summarizers. -/
@[ext]
structure SummaryResult where
  summary : List Char
  usage : TokenUsage
deriving DecidableEq

/-- `localSummarize(text)` from the source:
`sentences.slice(0, 3).join(' ').trim()`, falling back to `text.trim()`
when that selection is the empty string (`selection || text.trim()`). -/
def localSummarize (text : List Char) : SummaryResult :=
  let sentences := sentencesOf text
  let selection := trimL (List.intercalate [' '] (sentences.take 3))
  { summary := if selection = [] then trimL text else selection
    usage := ⟨0, 0, 0⟩ }

/-- `summarizeText(text)`.  `cfg = none` models `openai === null`
(no `OPENAI_API_KEY`); `cfg = some remote` models a configured client whose
call either returns a result or throws (`Except.error`).  The second
component counts how many times the remote call was invoked; the `catch`
branch of the source falls back to `localSummarize` without retrying. -/
def summarizeText (ε : Type) (cfg : Option (List Char → Except ε SummaryResult))
    (text : List Char) : SummaryResult × Nat :=
  match cfg with
  | none => (localSummarize text, 0)
  | some remote =>
      match remote text with
      | Except.ok r => (r, 1)
      | Except.error _ => (localSummarize text, 1)

/-- Outcome of `main` after the input text has been acquired. -/
inductive MainOutcome where
  | exitNoText
  | report (r : SummaryResult)
deriving DecidableEq

/-- The file-argument path of `main`: `userText = fs.readFileSync(argv[0])`
is passed untrimmed to the emptiness check `if (!userText)` (JavaScript
string falsiness: only the empty string is falsy) and then to
`summarizeText`. -/
def mainWithFile (ε : Type) (cfg : Option (List Char → Except ε SummaryResult))
    (contents : List Char) : MainOutcome :=
  if contents = [] then MainOutcome.exitNoText
  else MainOutcome.report (summarizeText ε cfg contents).1

/-- The reduction percentage printed by `main`:
`(1 - summaryLength / originalLength) * 100` (line 111), over ℚ. -/
def reductionPct (origLen sumLen : Nat) : ℚ :=
  (1 - (sumLen : ℚ) / (origLen : ℚ)) * 100

/-! ### Helper lemmas -/

/-- Whitespace characters are not sentence terminators. -/
theorem isWS_not_isTerm (c : Char) (h : isWS c = true) : isTerm c = false := by
  cases hv : isTerm c
  · rfl
  · simp only [isTerm, Bool.or_eq_true, decide_eq_true_eq] at hv
    rcases hv with (h1 | h1) | h1 <;> subst h1 <;> exact absurd h (by decide)

/-- Every match emitted from states `sTerm`/`sWs` already contains a
terminator, so the number of matches is bounded by the number of
terminators remaining in the input plus a state-dependent slack. -/
theorem scanFrags_length_le (rest : List Char) : ∀ (st : MState) (cur : List Char),
    (scanFrags st cur rest).length ≤
      rest.countP isTerm + (if st = MState.sTerm ∨ st = MState.sWs then 2 else 1) := by
  induction rest with
  | nil =>
    intro st cur
    cases st <;> simp [scanFrags]
  | cons c rest ih =>
    intro st cur
    cases st with
    | start =>
      cases ht : isTerm c with
      | true =>
        have h := ih MState.start cur
        simp at h
        simp [scanFrags, ht, List.countP_cons]
        omega
      | false =>
        have h := ih MState.sNon (c :: cur)
        simp at h
        simp [scanFrags, ht, List.countP_cons]
        omega
    | sNon =>
      cases ht : isTerm c with
      | true =>
        have h := ih MState.sTerm (c :: cur)
        simp at h
        simp [scanFrags, ht, List.countP_cons]
        omega
      | false =>
        have h := ih MState.sNon (c :: cur)
        simp at h
        simp [scanFrags, ht, List.countP_cons]
        omega
    | sTerm =>
      cases ht : isTerm c with
      | true =>
        have h := ih MState.sTerm (c :: cur)
        simp at h
        simp [scanFrags, ht, List.countP_cons]
        omega
      | false =>
        cases hw : isWS c with
        | true =>
          have h := ih MState.sWs (c :: cur)
          simp at h
          simp [scanFrags, ht, hw, List.countP_cons]
          omega
        | false =>
          have h := ih MState.sNon [c]
          simp at h
          simp [scanFrags, ht, hw, List.countP_cons]
          omega
    | sWs =>
      cases hw : isWS c with
      | true =>
        have h := ih MState.sWs (c :: cur)
        have ht : isTerm c = false := isWS_not_isTerm c hw
        simp at h
        simp [scanFrags, ht, hw, List.countP_cons]
        omega
      | false =>
        cases ht : isTerm c with
        | true =>
          have h := ih MState.start []
          simp at h
          simp [scanFrags, ht, hw, List.countP_cons]
          omega
        | false =>
          have h := ih MState.sNon [c]
          simp at h
          simp [scanFrags, ht, hw, List.countP_cons]
          omega

/-- The number of regex matches is at most the number of terminators plus one. -/
theorem matchFrags_length_le (text : List Char) :
    (matchFrags text).length ≤ text.countP isTerm + 1 := by
  have h := scanFrags_length_le text MState.start []
  simpa [matchFrags] using h

/-- With fewer than three terminators, `slice(0, 3)` keeps every fragment. -/
theorem sentencesOf_take3 (text : List Char) (h : text.countP isTerm < 3) :
    (sentencesOf text).take 3 = sentencesOf text := by
  unfold sentencesOf
  split
  · simp
  · exact List.take_of_length_le (le_trans (matchFrags_length_le text) (by omega))

/-- On input with no terminator the scan never leaves `sNon` and emits the
whole remaining input as the single match. -/
theorem scanFrags_sNon_no_term (rest : List Char) :
    ∀ cur, (∀ c ∈ rest, isTerm c = false) →
      scanFrags MState.sNon cur rest = [cur.reverse ++ rest] := by
  induction rest with
  | nil => intro cur _; simp [scanFrags]
  | cons c rest ih =>
    intro cur h
    have hc : isTerm c = false := h c (List.mem_cons_self c rest)
    have hr : ∀ x ∈ rest, isTerm x = false := fun x hx => h x (List.mem_cons_of_mem c hx)
    simp [scanFrags, hc, ih (c :: cur) hr]

/-- A nonempty terminator-free text is matched as a single fragment. -/
theorem matchFrags_no_term (text : List Char) (hne : text ≠ [])
    (h : ∀ c ∈ text, isTerm c = false) : matchFrags text = [text] := by
  cases text with
  | nil => exact absurd rfl hne
  | cons c rest =>
    have hc : isTerm c = false := h c (List.mem_cons_self c rest)
    have hr : ∀ x ∈ rest, isTerm x = false := fun x hx => h x (List.mem_cons_of_mem c hx)
    simp [matchFrags, scanFrags, hc, scanFrags_sNon_no_term rest [c] hr]

/-- Trimming an all-whitespace list yields the empty list. -/
theorem trimL_all_ws (l : List Char) (h : ∀ c ∈ l, isWS c = true) : trimL l = [] := by
  have h1 : l.dropWhile isWS = [] := List.dropWhile_eq_nil_iff.mpr h
  simp [trimL, h1]

/-- On terminator-free text `localSummarize` returns the trimmed text:
the scan yields the whole text as the single fragment (or the `|| [text]`
branch fires on empty input), `slice`/`join` leave it unchanged, and the
`selection || text.trim()` fallback also produces `text.trim()` when the
trimmed text is empty. -/
theorem summary_eq_trim_of_no_term (text : List Char)
    (h : ∀ c ∈ text, isTerm c = false) :
    (localSummarize text).summary = trimL text := by
  by_cases hne : text = []
  · subst hne; decide
  · have hm : matchFrags text = [text] := matchFrags_no_term text hne h
    simp [localSummarize, sentencesOf, hm, List.intercalate]

/-! ### Claim theorems -/

/-- C2: when the remote strategy is configured and its call throws, the
result of `summarizeText` is exactly `localSummarize text`; the remote call
is made once (no retry) and the error is not surfaced (the function still
returns a `SummaryResult`). -/
theorem summarizeText_fallback (ε : Type) (remote : List Char → Except ε SummaryResult)
    (text : List Char) (e : ε) (h : remote text = Except.error e) :
    summarizeText ε (some remote) text = (localSummarize text, 1) := by
  simp [summarizeText, h]

theorem summarizeText_fallback_witness :
    ((fun _ : List Char => (Except.error () : Except Unit SummaryResult)) ['a']
        = Except.error ()) ∧
    summarizeText Unit (some fun _ => Except.error ()) ['a'] = (localSummarize ['a'], 1) :=
  ⟨rfl, summarizeText_fallback Unit (fun _ => Except.error ()) ['a'] () rfl⟩

/-- C6: with no API key configured (`openai === null`), `summarizeText`
returns exactly the local result and the remote call count is zero. -/
theorem summarizeText_unconfigured (ε : Type) (text : List Char) :
    summarizeText ε none text = (localSummarize text, 0) := rfl

/-- C7: `localSummarize` is a pure function of its input, hence
deterministic: two invocations on the same text give the same result. -/
theorem localSummarize_deterministic (text : List Char) :
    localSummarize text = localSummarize text := rfl

/-- C8: the usage record returned by `localSummarize` always has all three
token counters equal to zero. -/
theorem localSummarize_usage_zero (text : List Char) :
    (localSummarize text).usage = ⟨0, 0, 0⟩ := rfl

/-- C1 (counterexample): the single-space text is a non-empty input, yet both
`localSummarize` and `summarizeText` return an empty summary for it, because
the selection trims to the empty string and the fallback `text.trim()` is
also empty. -/
theorem localSummarize_nonempty_counterexample :
    ([' '] : List Char) ≠ [] ∧ (localSummarize [' ']).summary = [] ∧
    (summarizeText Unit none [' ']).1.summary = [] := by decide

/-- C1 (amended): for every input text whose TRIMMED form is non-empty,
`localSummarize` (and `summarizeText` on the local path, e.g. with the
remote client unconfigured) returns a non-empty summary. -/
theorem localSummarize_nonempty_amended (text : List Char) (h : trimL text ≠ []) :
    (localSummarize text).summary ≠ [] ∧
    (summarizeText Unit none text).1.summary ≠ [] := by
  have hloc : (localSummarize text).summary ≠ [] := by
    simp only [localSummarize]
    split
    · exact h
    · assumption
  exact ⟨hloc, hloc⟩

theorem localSummarize_nonempty_amended_witness :
    trimL ['h', 'i'] ≠ [] ∧
    ((localSummarize ['h', 'i']).summary ≠ [] ∧
     (summarizeText Unit none ['h', 'i']).1.summary ≠ []) :=
  ⟨by decide, localSummarize_nonempty_amended ['h', 'i'] (by decide)⟩

/-- C3 (counterexample): `"a. b."` has two sentence terminators, yet the
summary is not the trimmed input: each fragment keeps its trailing
whitespace and `join(' ')` inserts an extra space, giving `"a.  b."`. -/
theorem localSummarize_few_terminators_counterexample :
    ("a. b.".toList.countP isTerm < 3) ∧
    (localSummarize "a. b.".toList).summary ≠ trimL "a. b.".toList := by decide

/-- C3 (amended): with fewer than three sentence terminators, no fragment is
dropped by `slice(0, 3)`: the summary is the join of ALL fragments of the
text with single spaces, trimmed, with the `text.trim()` fallback when that
join trims to the empty string.  (This need not equal the trimmed input
verbatim, since fragments keep their trailing whitespace and `join(' ')`
adds one more space.) -/
theorem localSummarize_few_terminators_amended (text : List Char)
    (h : text.countP isTerm < 3) :
    (localSummarize text).summary =
      (if trimL (List.intercalate [' '] (sentencesOf text)) = [] then trimL text
       else trimL (List.intercalate [' '] (sentencesOf text))) := by
  simp only [localSummarize, sentencesOf_take3 text h]

theorem localSummarize_few_terminators_amended_witness :
    ("a. b.".toList.countP isTerm < 3) ∧
    (localSummarize "a. b.".toList).summary =
      (if trimL (List.intercalate [' '] (sentencesOf "a. b.".toList)) = []
       then trimL "a. b.".toList
       else trimL (List.intercalate [' '] (sentencesOf "a. b.".toList))) :=
  ⟨by decide, localSummarize_few_terminators_amended "a. b.".toList (by decide)⟩

/-- C4 (counterexample): on the scenario-1 input with the remote client
unconfigured, the summary is NOT the single-spaced
`"Hello world. This is a test. Another sentence."`. -/
theorem scenario1_counterexample :
    (summarizeText Unit none
        "Hello world. This is a test. Another sentence. And one more.".toList).1.summary
      ≠ "Hello world. This is a test. Another sentence.".toList := by decide

/-- C4 (amended): on the scenario-1 input with the remote client
unconfigured, the summary is the first three fragments joined with an extra
space each — `"Hello world.  This is a test.  Another sentence."` (two
spaces between sentences) — and the usage counters are all zero. -/
theorem scenario1_actual :
    (summarizeText Unit none
        "Hello world. This is a test. Another sentence. And one more.".toList).1 =
      ⟨"Hello world.  This is a test.  Another sentence.".toList, ⟨0, 0, 0⟩⟩ := by decide

/-- C5: on text containing no sentence-terminator character the whole text
is treated as a single fragment and the summary is the trimmed input
verbatim. -/
theorem localSummarize_no_terminator (text : List Char)
    (h : ∀ c ∈ text, isTerm c = false) :
    (localSummarize text).summary = trimL text :=
  summary_eq_trim_of_no_term text h

theorem localSummarize_no_terminator_witness :
    (∀ c ∈ "just some words with no punctuation".toList, isTerm c = false) ∧
    (localSummarize "just some words with no punctuation".toList).summary
      = trimL "just some words with no punctuation".toList :=
  ⟨by decide, localSummarize_no_terminator "just some words with no punctuation".toList
    (by decide)⟩

/-- C9: a whitespace-only file is passed untrimmed to the `if (!userText)`
check, which treats it as non-empty (only the empty string is falsy), so the
program does not take the no-text exit: it proceeds to summarize and
`localSummarize` returns an empty summary. -/
theorem mainWithFile_whitespace_only (contents : List Char) (h1 : contents ≠ [])
    (h2 : ∀ c ∈ contents, isWS c = true) :
    mainWithFile Unit none contents = MainOutcome.report ⟨[], ⟨0, 0, 0⟩⟩ := by
  have hterm : ∀ c ∈ contents, isTerm c = false :=
    fun c hc => isWS_not_isTerm c (h2 c hc)
  have h3 : (localSummarize contents).summary = [] := by
    rw [summary_eq_trim_of_no_term contents hterm, trimL_all_ws contents h2]
  have hres : localSummarize contents = (⟨[], ⟨0, 0, 0⟩⟩ : SummaryResult) :=
    SummaryResult.ext h3 rfl
  unfold mainWithFile
  rw [if_neg h1]
  show MainOutcome.report (localSummarize contents) = _
  rw [hres]

theorem mainWithFile_whitespace_only_witness :
    ([' '] : List Char) ≠ [] ∧ (∀ c ∈ ([' '] : List Char), isWS c = true) ∧
    mainWithFile Unit none [' '] = MainOutcome.report ⟨[], ⟨0, 0, 0⟩⟩ :=
  ⟨by decide, by decide, mainWithFile_whitespace_only [' '] (by decide) (by decide)⟩

/-- C10: there is an input text whose local summary is strictly LONGER than
the text itself (fragments keep their trailing whitespace and are joined
with an additional space), so the reduction percentage printed by `main` is
negative for it. -/
theorem localSummarize_expansion_exists :
    ∃ text : List Char, text.length < ((localSummarize text).summary).length ∧
      reductionPct text.length ((localSummarize text).summary).length < 0 := by
  refine ⟨"a. b. c".toList, ?_, ?_⟩
  · decide
  · have h1 : ("a. b. c".toList).length = 7 := by decide
    have h2 : ((localSummarize "a. b. c".toList).summary).length = 9 := by decide
    rw [h1, h2]
    unfold reductionPct
    norm_num
